import Mathlib

/-!
Verification of the LSTID edge-detection pipeline
(`hamsci_LSTID_detect/edge_detection.py`).

Each Python function relevant to the checked properties is embedded as a
Lean definition over exact arithmetic: Python/numpy floats become `ℚ`
(or `ℝ` for the trigonometric sinusoid model), machine integers become
`ℤ` with explicit `emod` where a dtype cast truncates, numpy arrays
become `List`s, Python dicts become insertion-ordered association lists,
and code paths that raise become `Except`/`Option` results.
-/

namespace LSTID

/-! ## List helpers mirroring numpy primitives -/

/-- numpy `np.amax` over a flat array, with an explicit default for the
empty list (numpy raises there; callers guard the empty case). -/
def npamax [LinearOrder α] (d : α) : List α → α
  | [] => d
  | a :: r => r.foldl max a

/-- numpy `np.amin` over a flat array, with an explicit default for the
empty list. -/
def npamin [LinearOrder α] (d : α) : List α → α
  | [] => d
  | a :: r => r.foldl min a

/-- numpy `np.cumsum` over a list of integers. -/
def cumsum (l : List ℤ) : List ℤ :=
  (l.foldl (fun acc x => (acc.1 + x, acc.2 ++ [acc.1 + x])) ((0 : ℤ), ([] : List ℤ))).2

theorem le_foldl_max [LinearOrder α] (l : List α) (b : α) : b ≤ l.foldl max b := by
  induction l generalizing b with
  | nil => exact le_refl b
  | cons a r ih => exact le_trans (le_max_left b a) (ih (max b a))

theorem mem_le_foldl_max [LinearOrder α] {x : α} {l : List α} (b : α) (h : x ∈ l) :
    x ≤ l.foldl max b := by
  induction l generalizing b with
  | nil => cases h
  | cons a r ih =>
    rcases List.mem_cons.mp h with rfl | hx
    · exact le_trans (le_max_right b x) (le_foldl_max r (max b x))
    · exact ih (max b a) hx

theorem le_npamax_of_mem [LinearOrder α] {x : α} {l : List α} (d : α) (h : x ∈ l) :
    x ≤ npamax d l := by
  cases l with
  | nil => cases h
  | cons a r =>
    rcases List.mem_cons.mp h with rfl | hx
    · exact le_foldl_max r x
    · exact mem_le_foldl_max a hx

/-- numpy `.round()`: round half to even (banker's rounding). -/
def npround (x : ℚ) : ℤ :=
  if x - ⌊x⌋ < 1/2 then ⌊x⌋
  else if 1/2 < x - ⌊x⌋ then ⌊x⌋ + 1
  else if 2 ∣ ⌊x⌋ then ⌊x⌋ else ⌊x⌋ + 1

theorem npround_le_of_le {x : ℚ} {c : ℤ} (h : x ≤ (c : ℚ)) : npround x ≤ c := by
  have hf : ⌊x⌋ ≤ c := by
    have := Int.floor_le_floor h
    simpa using this
  have hlt : (⌊x⌋ : ℚ) < x → ⌊x⌋ + 1 ≤ c := by
    intro hfx
    have : (⌊x⌋ : ℚ) < (c : ℚ) := lt_of_lt_of_le hfx h
    have : ⌊x⌋ < c := by exact_mod_cast this
    omega
  unfold npround
  split_ifs with h1 h2 h3
  · exact hf
  · exact hlt (by linarith [Int.floor_le x])
  · exact hf
  · have hge : 1/2 ≤ x - ⌊x⌋ := le_of_not_lt h1
    exact hlt (by linarith)

/-! ## `occurrence_max` (edge_detection.py lines 24–54)

Python builds `np.histogram(arr, bins=np.arange(min, max + 2))`, drops the
first bin edge (`bins = bins[1:]`, i.e. keeps the right edges
`min+1, …, max+1`), reverses histogram and edges, takes the cumulative sum
from the top, masks cumulative counts `>= n`, and returns the largest
masked edge.  `none` models the numpy errors on an empty array or an
empty mask. -/

def occurrence_max (arr : List ℤ) (n : ℤ) : Option ℤ :=
  if arr = [] then none
  else
    let lo := npamin 0 arr
    let hi := npamax 0 arr
    let binVals := (List.range (hi - lo + 1).toNat).map (fun i => lo + (i : ℤ))
    let hist := binVals.map (fun v => (arr.count v : ℤ))
    let rbins := (binVals.map (· + 1)).reverse
    let rhist := hist.reverse
    let csum := cumsum rhist
    let sel := (rbins.zip csum).filterMap (fun p => if n ≤ p.2 then some p.1 else none)
    if sel = [] then none else some (npamax 0 sel)

/-- C3: `occurrence_max` with `n = 0` does not return the true maximum of
the array: because the code keeps the upper bin edges (`bins[1:]`) of the
unit-width histogram, it returns the maximum plus one.  On `[3]` the true
maximum is `3` but the function yields `4`; on `[0, 0, 5]` the true
maximum is `5` but the function yields `6`. -/
theorem occurrence_max_zero_is_max_plus_one :
    occurrence_max [3] 0 = some 4 ∧ npamax 0 [(3 : ℤ)] = 3 ∧
    occurrence_max [0, 0, 5] 0 = some 6 ∧ npamax 0 [(0 : ℤ), 0, 5] = 5 := by
  decide

/-! ## `take_quantile` argument validation (edge_detection.py lines 275–302)

The Python guard is `if 0 >= q >= 1: raise ValueError(...)`, a chained
comparison equivalent to `0 >= q and q >= 1`, which no float satisfies;
a non-float `q` raises `TypeError` first.  The embedding records which of
the three outcomes (type error, value error, proceed to `np.nanquantile`)
the argument reaches. -/

inductive PyFloatArg where
  | float : ℚ → PyFloatArg
  | nonfloat : PyFloatArg
deriving DecidableEq

inductive QuantileOutcome where
  | typeError : QuantileOutcome
  | valueError : QuantileOutcome
  | computes : QuantileOutcome
deriving DecidableEq

def take_quantile_check : PyFloatArg → QuantileOutcome
  | .nonfloat => .typeError
  | .float q => if 0 ≥ q ∧ q ≥ 1 then .valueError else .computes

/-- C1: the quantile validation guard `0 >= q >= 1` is unsatisfiable, so
no float ever raises the value error: `q = 0`, `q = 1`, `q = 3/2` and
`q = -1` all pass validation and reach the quantile computation, contrary
to the claimed rejection of every `q ≤ 0` and `q ≥ 1`.  Only the
non-float type check fires. -/
theorem take_quantile_check_never_value_error :
    take_quantile_check (.float 0) = .computes ∧
    take_quantile_check (.float 1) = .computes ∧
    take_quantile_check (.float (3/2)) = .computes ∧
    take_quantile_check (.float (-1)) = .computes ∧
    take_quantile_check .nonfloat = .typeError := by
  refine ⟨?_, ?_, ?_, ?_, rfl⟩ <;>
    · simp only [take_quantile_check]
      rw [if_neg (by norm_num)]

/-! ## `islandinfo` (edge_detection.py lines 368–384)

Sentinel-padded run detection: `y_ext = [False, y == trigger, False]`,
`idx = flatnonzero(y_ext[:-1] != y_ext[1:])`, run lengths
`idx[1::2] - idx[:-1:2]`, and inclusive islands
`zip(idx[:-1:2], idx[1::2] - 1)`. -/

def evenIdx (l : List α) : List α :=
  (l.enum.filter (fun p => p.1 % 2 = 0)).map Prod.snd

def oddIdx (l : List α) : List α :=
  (l.enum.filter (fun p => p.1 % 2 = 1)).map Prod.snd

def shiftIndices (l : List Bool) : List ℕ :=
  (List.range (l.length - 1)).filter (fun i => l.getD i false != l.getD (i + 1) false)

def islandinfo (y : List ℤ) (trigger_val : ℤ) (stopind_inclusive : Bool) :
    List (ℕ × ℕ) × List ℕ :=
  let y_ext : List Bool := false :: (y.map (fun v => v == trigger_val)) ++ [false]
  let idx := shiftIndices y_ext
  let starts := evenIdx idx.dropLast
  let stops := oddIdx idx
  let islands := starts.zip (stops.map (fun s => s - (if stopind_inclusive then 1 else 0)))
  let lens := (stops.zip starts).map (fun p => p.1 - p.2)
  (islands, lens)

/-- C2 counterexample: on `[0,1,1,0,1,0,0,1,1,1]` with trigger value `1`,
`islandinfo` does not return exactly two runs — the input contains three
runs of ones (a singleton run sits at index 4). -/
theorem islandinfo_example_not_two_runs :
    ¬ ((islandinfo [0, 1, 1, 0, 1, 0, 0, 1, 1, 1] 1 true).1.length = 2) := by
  decide

/-- C2 (amended): on `[0,1,1,0,1,0,0,1,1,1]` with trigger value `1` and
inclusive stop indices, `islandinfo` returns exactly three runs with
inclusive bounds `(1,2)`, `(4,4)`, `(7,9)` and lengths `2`, `1`, `3`. -/
theorem islandinfo_example_three_runs :
    islandinfo [0, 1, 1, 0, 1, 0, 0, 1, 1, 1] 1 true =
      ([(1, 2), (4, 4), (7, 9)], [2, 1, 3]) := by
  decide

/-! ## Trim-fraction resolution in `run_edge_detect` (lines 448–449)

Line 449 reads
`yl_trim, yr_trim = x_trim if isinstance(y_trim, (tuple, list)) else (y_trim, y_trim)`:
when `y_trim` is a pair the code unpacks `x_trim` instead of `y_trim`
(a scalar `x_trim` then raises `TypeError`, modelled as `none`). -/

inductive TrimArg where
  | scalar : ℚ → TrimArg
  | pair : ℚ → ℚ → TrimArg
deriving DecidableEq

/-- Python tuple unpacking `a, b = v`: a 2-tuple unpacks, a float raises. -/
def unpack_pair : TrimArg → Option (ℚ × ℚ)
  | .pair a b => some (a, b)
  | .scalar _ => none

/-- Horizontal trim fractions (line 448): resolved from `x_trim`. -/
def x_trim_fractions : TrimArg → ℚ × ℚ
  | .pair a b => (a, b)
  | .scalar s => (s, s)

/-- Vertical trim fractions (line 449): when `y_trim` is a pair the source
unpacks `x_trim`. -/
def y_trim_fractions (x_trim y_trim : TrimArg) : Option (ℚ × ℚ) :=
  match y_trim with
  | .pair _ _ => unpack_pair x_trim
  | .scalar s => some (s, s)

/-- C8: supplying the vertical trim as a pair does not use the `y_trim`
fractions: with the default scalar `x_trim = 0.08333` the call crashes
(unpacking a float), and with a pair `x_trim = (0.05, 0.06)` the vertical
fractions silently become `x_trim`'s components instead of the supplied
`y_trim = (0.1, 0.2)`.  Scalar trims and the horizontal pair are handled
as claimed. -/
theorem y_trim_pair_uses_x_trim :
    y_trim_fractions (.scalar (8333/100000)) (.pair (1/10) (1/5)) = none ∧
    y_trim_fractions (.pair (1/20) (3/50)) (.pair (1/10) (1/5)) = some (1/20, 3/50) ∧
    x_trim_fractions (.pair (1/20) (3/50)) = (1/20, 3/50) ∧
    y_trim_fractions (.scalar (8333/100000)) (.scalar (2/25)) = some (2/25, 2/25) := by
  exact ⟨rfl, rfl, rfl, rfl⟩

/-! ## `rescale_to_int` (edge_detection.py lines 56–103)

The stages are split so the theorems can speak about the intermediate
float arrays: shift by the minimum, round and cast to `uint16` for the
occurrence histogram, scale by `i_max / max_val`, guard the scaled
maximum, then round and cast to `uint8` (`emod 256`). -/

def rescale_shift (arr : List ℚ) : List ℚ :=
  arr.map (fun x => x - npamin 0 arr)

def rescale_round16 (arr : List ℚ) : List ℤ :=
  (rescale_shift arr).map (fun x => npround x % 65536)

def rescale_scaled (arr : List ℚ) (occurrence_n i_max : ℤ) : List ℚ :=
  (rescale_shift arr).map
    (fun x =>
      x * ((i_max : ℚ) / (((occurrence_max (rescale_round16 arr) occurrence_n).getD 0 : ℤ) : ℚ)))

def rescale_to_int (arr : List ℚ) (occurrence_n i_max : ℤ) : Except String (List ℤ) :=
  if 255 < i_max then .error "i_max must be in 8bit unsigned integer range"
  else if arr = [] then .error "arr must be nonempty"
  else if 65535 < npamax 0 arr then
    .error "all values in arr must be in 16bit unsigned integer range"
  else if (occurrence_max (rescale_round16 arr) occurrence_n).isNone then
    .error "occurrence histogram mask is empty"
  else if 255 < npamax 0 (rescale_scaled arr occurrence_n i_max) then
    .error "end rescaling max out of range of uint8 range"
  else .ok ((rescale_scaled arr occurrence_n i_max).map (fun x => npround x % 256))

/-- C6: `rescale_to_int` raises when the requested ceiling `i_max`
exceeds 255, when any input value exceeds the 16-bit unsigned range
before scaling, or when any post-scaling value exceeds 255; on a normal
return every emitted value is an integer in `[0, 255]` and every
pre-cast rounded value is at most 255. -/
theorem rescale_to_int_spec (arr : List ℚ) (occurrence_n i_max : ℤ) :
    (255 < i_max → ∃ e, rescale_to_int arr occurrence_n i_max = Except.error e) ∧
    (∀ x ∈ arr, (65535 : ℚ) < x →
      ∃ e, rescale_to_int arr occurrence_n i_max = Except.error e) ∧
    ((∃ v ∈ rescale_scaled arr occurrence_n i_max, (255 : ℚ) < v) →
      ∃ e, rescale_to_int arr occurrence_n i_max = Except.error e) ∧
    (∀ out, rescale_to_int arr occurrence_n i_max = Except.ok out →
      (∀ v ∈ out, 0 ≤ v ∧ v ≤ 255) ∧
      ∀ v ∈ rescale_scaled arr occurrence_n i_max, npround v ≤ 255) := by
  refine ⟨?_, ?_, ?_, ?_⟩
  · intro h
    unfold rescale_to_int
    rw [if_pos h]
    exact ⟨_, rfl⟩
  · intro x hx h65
    have hmax : (65535 : ℚ) < npamax 0 arr :=
      lt_of_lt_of_le h65 (le_npamax_of_mem 0 hx)
    unfold rescale_to_int
    split_ifs <;> exact ⟨_, rfl⟩
  · rintro ⟨v, hv, h255⟩
    have hmax : (255 : ℚ) < npamax 0 (rescale_scaled arr occurrence_n i_max) :=
      lt_of_lt_of_le h255 (le_npamax_of_mem 0 hv)
    unfold rescale_to_int
    split_ifs <;> exact ⟨_, rfl⟩
  · intro out hok
    unfold rescale_to_int at hok
    split_ifs at hok with h1 h2 h3 h4 h5
    simp only [Except.ok.injEq] at hok
    subst hok
    have hscale : ∀ v ∈ rescale_scaled arr occurrence_n i_max, v ≤ 255 :=
      fun v hv => le_trans (le_npamax_of_mem 0 hv) (not_lt.mp h5)
    constructor
    · intro w hw
      obtain ⟨x, hxmem, rfl⟩ := List.mem_map.mp hw
      refine ⟨Int.emod_nonneg _ (by norm_num), ?_⟩
      have := Int.emod_lt_of_pos (npround x) (show (0 : ℤ) < 256 by norm_num)
      omega
    · intro v hv
      exact npround_le_of_le (by exact_mod_cast hscale v hv)

/-- C6 witness: `i_max = 300` is rejected, while `arr = [0]`,
`occurrence_n = 0`, `i_max = 30` returns normally with its single output
value inside `[0, 255]`. -/
theorem rescale_to_int_spec_witness :
    (rescale_to_int [0] 0 300).isOk = false ∧ (0 : ℤ) ≤ 0 ∧ (0 : ℤ) ≤ 255 := by
  have herr : ∃ e, rescale_to_int [0] 0 300 = Except.error e :=
    (rescale_to_int_spec [0] 0 300).1 (by norm_num)
  have e2 : rescale_shift [0] = [0] := by
    simp [rescale_shift, npamin]
  have e3 : npround 0 = 0 := by
    norm_num [npround]
  have e4 : rescale_round16 [0] = [0] := by
    simp [rescale_round16, e2, e3]
  have e5 : occurrence_max [0] 0 = some 1 := by decide
  have e6 : rescale_scaled [0] 0 30 = [0] := by
    simp [rescale_scaled, e2]
  have hok : rescale_to_int [0] 0 30 = Except.ok [0] := by
    unfold rescale_to_int
    rw [if_neg (by norm_num), if_neg (by simp), if_neg ?hc3, if_neg ?hc4, if_neg ?hc5]
    case hc3 => show ¬ (65535 : ℚ) < npamax 0 [0]; norm_num [npamax]
    case hc4 => rw [e4, e5]; simp
    case hc5 => rw [e6]; norm_num [npamax]
    rw [e6]
    simp [e3]
  have hbound := ((rescale_to_int_spec [0] 0 30).2.2.2 [0] hok).1 0 (by simp)
  exact ⟨by rw [herr.choose_spec]; rfl, hbound⟩

/-! ## Classification criteria (edge_detection.py lines 647–661)

`run_edge_detect` mutates the caller-supplied `lstid_criteria` dict in
place: `if key not in lstid_criteria: lstid_criteria[key] = default` for
the three keys `T_hr`, `amplitude_km`, `r2`.  Python dicts keep insertion
order, so the dict is modelled as an insertion-ordered association list
and each defaulting step appends at the end when the key is missing.
`resolve_criteria` is the final value of the caller's dict object after
the call. -/

def lookupCrit (crit : List (String × ℚ × ℚ)) (k : String) : Option (ℚ × ℚ) :=
  (crit.find? (fun kv => kv.1 == k)).map Prod.snd

def hasCrit (crit : List (String × ℚ × ℚ)) (k : String) : Bool :=
  crit.any (fun kv => kv.1 == k)

def insertMissing (crit : List (String × ℚ × ℚ)) (k : String) (v : ℚ × ℚ) :
    List (String × ℚ × ℚ) :=
  if hasCrit crit k then crit else crit ++ [(k, v)]

def resolve_criteria (lstid_criteria : List (String × ℚ × ℚ)) (lstid_T_hr_lim : ℚ × ℚ) :
    List (String × ℚ × ℚ) :=
  insertMissing
    (insertMissing (insertMissing lstid_criteria "T_hr" lstid_T_hr_lim)
      "amplitude_km" (20, 2000))
    "r2" (7/20, 11/10)

/-- Classification loop: `np.logical_and(val >= crit[0], val < crit[1])`
for every criterion, then `np.all`.  `fit` models lookup in the selected
`p0_sin_fit` dict. -/
def is_lstid_of (fit : String → ℚ) (criteria : List (String × ℚ × ℚ)) : Bool :=
  criteria.all (fun c => decide (c.2.1 ≤ fit c.1) && decide (fit c.1 < c.2.2))

theorem find?_append_left {p : α → Bool} {l₁ : List α} {a : α} (l₂ : List α)
    (h : l₁.find? p = some a) : (l₁ ++ l₂).find? p = some a := by
  induction l₁ with
  | nil => simp [List.find?] at h
  | cons x xs ih =>
    rw [List.cons_append]
    cases hp : p x with
    | true =>
      rw [List.find?_cons_of_pos _ hp] at h
      rw [List.find?_cons_of_pos _ hp]
      exact h
    | false =>
      have hp' : ¬ p x = true := by simp [hp]
      rw [List.find?_cons_of_neg _ hp'] at h
      rw [List.find?_cons_of_neg _ hp']
      exact ih h

theorem find?_append_right {p : α → Bool} {l₁ : List α} (l₂ : List α)
    (h : l₁.find? p = none) : (l₁ ++ l₂).find? p = l₂.find? p := by
  induction l₁ with
  | nil => simp
  | cons x xs ih =>
    rw [List.cons_append]
    cases hp : p x with
    | true => rw [List.find?_cons_of_pos _ hp] at h; cases h
    | false =>
      have hp' : ¬ p x = true := by simp [hp]
      rw [List.find?_cons_of_neg _ hp'] at h
      rw [List.find?_cons_of_neg _ hp']
      exact ih h

theorem hasCrit_false_find?_none {crit : List (String × ℚ × ℚ)} {k : String}
    (h : hasCrit crit k = false) : crit.find? (fun kv => kv.1 == k) = none := by
  rw [List.find?_eq_none]
  intro x hx
  simp only [hasCrit, List.any_eq_false] at h
  exact h x hx

theorem lookupCrit_insertMissing_of_some {crit : List (String × ℚ × ℚ)}
    {k' : String} {v' : ℚ × ℚ} {k : String} {v : ℚ × ℚ}
    (h : lookupCrit crit k = some v) :
    lookupCrit (insertMissing crit k' v') k = some v := by
  unfold insertMissing
  split_ifs
  · exact h
  · unfold lookupCrit at h ⊢
    obtain ⟨kv, hkv, hsnd⟩ := Option.map_eq_some'.mp h
    rw [find?_append_left _ hkv]
    simp [hsnd]

theorem lookupCrit_append_single_self {crit : List (String × ℚ × ℚ)}
    {k : String} {v : ℚ × ℚ} (h : hasCrit crit k = false) :
    lookupCrit (crit ++ [(k, v)]) k = some v := by
  unfold lookupCrit
  rw [find?_append_right _ (hasCrit_false_find?_none h)]
  simp [List.find?]

theorem hasCrit_insertMissing_ne {crit : List (String × ℚ × ℚ)}
    {k' : String} {v' : ℚ × ℚ} {k : String} (hne : (k' == k) = false) :
    hasCrit (insertMissing crit k' v') k = hasCrit crit k := by
  unfold insertMissing
  split_ifs
  · rfl
  · simp [hasCrit, List.any_append, hne]

theorem insertMissing_of_not_has {crit : List (String × ℚ × ℚ)}
    {k : String} {v : ℚ × ℚ} (h : hasCrit crit k = false) :
    insertMissing crit k v = crit ++ [(k, v)] := by
  unfold insertMissing
  rw [if_neg (by simp [h])]

/-- C4 counterexample: an empty caller-supplied criteria mapping is not
left unchanged by `run_edge_detect` — the defaulting step writes the
three default criteria into the caller's dict object, so its final value
differs from its initial value. -/
theorem resolve_criteria_mutates_empty : resolve_criteria [] (1, 9/2) ≠ [] := by
  simp [resolve_criteria, insertMissing, hasCrit]

/-- C4 (amended): `run_edge_detect` mutates a caller-supplied
`lstid_criteria` mapping in place, appending a default entry for each of
the keys `T_hr`, `amplitude_km`, `r2` that is missing; a mapping that
already contains all three keys is left unchanged. -/
theorem resolve_criteria_complete_unchanged (crit : List (String × ℚ × ℚ))
    (T_lim : ℚ × ℚ) (h1 : hasCrit crit "T_hr" = true)
    (h2 : hasCrit crit "amplitude_km" = true) (h3 : hasCrit crit "r2" = true) :
    resolve_criteria crit T_lim = crit := by
  unfold resolve_criteria insertMissing
  rw [if_pos h1, if_pos h2, if_pos h3]

/-- C4 witness: a mapping supplying all three criteria keys is returned
unchanged. -/
theorem resolve_criteria_complete_unchanged_witness :
    resolve_criteria
        [("T_hr", (1, 9/2)), ("amplitude_km", (20, 2000)), ("r2", (7/20, 11/10))]
        (1, 9/2) =
      [("T_hr", (1, 9/2)), ("amplitude_km", (20, 2000)), ("r2", (7/20, 11/10))] :=
  resolve_criteria_complete_unchanged _ _ (by decide) (by decide) (by decide)

/-- C7: with a best sinusoid fit present, `is_lstid` is true iff every
criterion in the resolved criteria set is met as a closed-open interval
`low ≤ v < high`; resolution preserves every caller-supplied override and
fills exactly the missing keys with the defaults `T_hr ↦ lstid_T_hr_lim`,
`amplitude_km ↦ [20, 2000)`, `r2 ↦ [0.35, 1.1)`. -/
theorem is_lstid_iff_criteria (fit : String → ℚ) (overrides : List (String × ℚ × ℚ))
    (T_lim : ℚ × ℚ) :
    (is_lstid_of fit (resolve_criteria overrides T_lim) = true ↔
      ∀ c ∈ resolve_criteria overrides T_lim, c.2.1 ≤ fit c.1 ∧ fit c.1 < c.2.2) ∧
    (∀ k v, lookupCrit overrides k = some v →
      lookupCrit (resolve_criteria overrides T_lim) k = some v) ∧
    (hasCrit overrides "T_hr" = false →
      lookupCrit (resolve_criteria overrides T_lim) "T_hr" = some T_lim) ∧
    (hasCrit overrides "amplitude_km" = false →
      lookupCrit (resolve_criteria overrides T_lim) "amplitude_km" = some (20, 2000)) ∧
    (hasCrit overrides "r2" = false →
      lookupCrit (resolve_criteria overrides T_lim) "r2" = some (7/20, 11/10)) := by
  refine ⟨?_, ?_, ?_, ?_, ?_⟩
  · simp [is_lstid_of, List.all_eq_true, Bool.and_eq_true, decide_eq_true_iff]
  · intro k v h
    exact lookupCrit_insertMissing_of_some
      (lookupCrit_insertMissing_of_some (lookupCrit_insertMissing_of_some h))
  · intro h
    unfold resolve_criteria
    rw [insertMissing_of_not_has h]
    exact lookupCrit_insertMissing_of_some
      (lookupCrit_insertMissing_of_some (lookupCrit_append_single_self h))
  · intro h
    unfold resolve_criteria
    have h1 : hasCrit (insertMissing overrides "T_hr" T_lim) "amplitude_km" = false := by
      rw [hasCrit_insertMissing_ne (by decide)]
      exact h
    rw [insertMissing_of_not_has h1]
    exact lookupCrit_insertMissing_of_some (lookupCrit_append_single_self h1)
  · intro h
    unfold resolve_criteria
    have h1 : hasCrit
        (insertMissing (insertMissing overrides "T_hr" T_lim) "amplitude_km" (20, 2000))
        "r2" = false := by
      rw [hasCrit_insertMissing_ne (by decide), hasCrit_insertMissing_ne (by decide)]
      exact h
    rw [insertMissing_of_not_has h1]
    exact lookupCrit_append_single_self h1

/-- Fitted values used to exercise the classification: period 2 h,
amplitude 100 km, r² = 0.5, all inside the default criteria. -/
def exampleFit : String → ℚ := fun k =>
  if k = "T_hr" then 2 else if k = "amplitude_km" then 100 else 1/2

/-- C7 witness: with no overrides and `lstid_T_hr_lim = (1, 4.5)`, the
example fit is classified positive. -/
theorem is_lstid_iff_criteria_witness :
    is_lstid_of exampleFit (resolve_criteria [] (1, 9/2)) = true := by
  apply (is_lstid_iff_criteria exampleFit [] (1, 9/2)).1.mpr
  have hres : resolve_criteria [] (1, 9/2) =
      [("T_hr", (1, 9/2)), ("amplitude_km", (20, 2000)), ("r2", (7/20, 11/10))] := by
    simp [resolve_criteria, insertMissing, hasCrit]
  rw [hres]
  intro c hc
  simp only [List.mem_cons, List.not_mem_nil, or_false] at hc
  rcases hc with rfl | rfl | rfl
  · norm_num [show exampleFit "T_hr" = 2 from rfl]
  · norm_num [show exampleFit "amplitude_km" = 100 from rfl]
  · norm_num [show exampleFit "r2" = 1/2 from rfl]

/-! ## Stability-window clamping (edge_detection.py lines 529–553)

Times are modelled as rational hours since local midnight.  The source
hard-codes the outer analysis window `[12, 24]`, the inner window
`[13, 23]` and the 30-minute margin, then clamps the longest stable run
`(fitWin_0, fitWin_1)` with
`if fitWin_0 < win_0 + margin: fitWin_0 = win_0 + margin` and
`if fitWin_1 > win_1 - margin: fitWin_1 = win_1 - margin`. -/

def outer_win_start : ℚ := 12
def outer_win_end : ℚ := 24
def inner_win_start : ℚ := 13
def inner_win_end : ℚ := 23
def fit_margin : ℚ := 1/2

def clamp_fit_window (fitWin_0 fitWin_1 : ℚ) : ℚ × ℚ :=
  (if fitWin_0 < inner_win_start + fit_margin then inner_win_start + fit_margin else fitWin_0,
   if fitWin_1 > inner_win_end - fit_margin then inner_win_end - fit_margin else fitWin_1)

/-- C5 counterexample: a longest stable run located at the very start of
the outer analysis window (both endpoints at hour 12, inside the outer
window) is clamped to a window whose start `13.5` is not below its end
`12` — the code enforces no `start < end` invariant. -/
theorem clamp_fit_window_start_not_lt_end :
    outer_win_start ≤ (12 : ℚ) ∧ (12 : ℚ) ≤ (12 : ℚ) ∧ (12 : ℚ) ≤ outer_win_end ∧
    ¬ (clamp_fit_window 12 12).1 < (clamp_fit_window 12 12).2 := by
  norm_num [clamp_fit_window, outer_win_start, outer_win_end, inner_win_start,
    inner_win_end, fit_margin]

/-- C5 (amended): the clamped stability window satisfies `start < end`
provided the longest stable run has positive duration and reaches into
the margin-inset inner window (run start before `win_1 - margin`, run end
after `win_0 + margin`); both clamped endpoints then lie within the outer
analysis window bounds. -/
theorem clamp_fit_window_spec (t0 t1 : ℚ) (h0 : outer_win_start ≤ t0) (h1 : t0 < t1)
    (h2 : t1 ≤ outer_win_end) (h3 : t0 < inner_win_end - fit_margin)
    (h4 : inner_win_start + fit_margin < t1) :
    (clamp_fit_window t0 t1).1 < (clamp_fit_window t0 t1).2 ∧
    outer_win_start ≤ (clamp_fit_window t0 t1).1 ∧
    (clamp_fit_window t0 t1).1 ≤ outer_win_end ∧
    outer_win_start ≤ (clamp_fit_window t0 t1).2 ∧
    (clamp_fit_window t0 t1).2 ≤ outer_win_end := by
  unfold clamp_fit_window outer_win_start outer_win_end inner_win_start inner_win_end
    fit_margin at *
  split_ifs with hA hB <;> refine ⟨?_, ?_, ?_, ?_, ?_⟩ <;> linarith

/-- C5 witness: a stable run from hour 14 to hour 20 is clamped to itself
and satisfies the window invariants. -/
theorem clamp_fit_window_spec_witness :
    (clamp_fit_window 14 20).1 < (clamp_fit_window 14 20).2 ∧
    outer_win_start ≤ (clamp_fit_window 14 20).1 ∧
    (clamp_fit_window 14 20).1 ≤ outer_win_end ∧
    outer_win_start ≤ (clamp_fit_window 14 20).2 ∧
    (clamp_fit_window 14 20).2 ≤ outer_win_end :=
  clamp_fit_window_spec 14 20 (by norm_num [outer_win_start]) (by norm_num)
    (by norm_num [outer_win_end]) (by norm_num [inner_win_end, fit_margin])
    (by norm_num [inner_win_start, fit_margin])

/-! ## Sinusoid model (edge_detection.py lines 386–393)

`phase_rad = 2π · phase_hr / T_hr`, `freq = 1 / (3600 · T_hr)` (one over
`timedelta(hours=T_hr).total_seconds()`), and
`result = |amplitude_km| · sin(2π · tt_sec · freq + phase_rad)
+ (slope_kmph / 3600) · tt_sec + offset_km`. -/

noncomputable def sinusoid (tt_sec T_hr amplitude_km phase_hr offset_km slope_kmph : ℝ) : ℝ :=
  |amplitude_km| * Real.sin (2 * Real.pi * tt_sec * (1 / (3600 * T_hr))
      + 2 * Real.pi * (phase_hr / T_hr))
    + slope_kmph / 3600 * tt_sec + offset_km

/-- C9: the sinusoid model takes the absolute value of the amplitude at
evaluation time, so negating `amplitude_km` leaves the value unchanged,
and with zero slope and zero offset it reduces to the pure sine wave
`|A| · sin(2π·t/(3600·T) + 2π·φ/T)`. -/
theorem sinusoid_abs_amplitude_and_pure_sine
    (tt_sec T_hr amplitude_km phase_hr offset_km slope_kmph : ℝ) (hT : T_hr ≠ 0) :
    sinusoid tt_sec T_hr (-amplitude_km) phase_hr offset_km slope_kmph =
      sinusoid tt_sec T_hr amplitude_km phase_hr offset_km slope_kmph ∧
    sinusoid tt_sec T_hr amplitude_km phase_hr 0 0 =
      |amplitude_km| *
        Real.sin (2 * Real.pi * tt_sec / (3600 * T_hr) + 2 * Real.pi * phase_hr / T_hr) := by
  constructor
  · simp [sinusoid, abs_neg]
  · have harg : 2 * Real.pi * tt_sec * (1 / (3600 * T_hr)) + 2 * Real.pi * (phase_hr / T_hr)
        = 2 * Real.pi * tt_sec / (3600 * T_hr) + 2 * Real.pi * phase_hr / T_hr := by
      ring
    unfold sinusoid
    rw [harg]
    ring

/-- C9 witness: period 2.5 h, amplitude 50 km at `tt_sec = 3600`. -/
theorem sinusoid_abs_amplitude_and_pure_sine_witness :
    sinusoid 3600 (5/2) (-50) 0 2 3 = sinusoid 3600 (5/2) 50 0 2 3 ∧
    sinusoid 3600 (5/2) 50 0 0 0 =
      |(50 : ℝ)| *
        Real.sin (2 * Real.pi * 3600 / (3600 * (5/2)) + 2 * Real.pi * 0 / (5/2)) :=
  sinusoid_abs_amplitude_and_pure_sine 3600 (5/2) 50 0 2 3 (by norm_num)

/-! ## Fit-block failure handling (edge_detection.py lines 559–645)

The whole fit block runs inside `try … except: all_sin_fits = []`.  The
block's outcome is modelled as either an exception (`exn`) or a normal
completion carrying the polynomial-fit artifacts and the list of
successful sinusoid fit attempts (each attempt a parameter dict).  After
the block, lines 627–645 either select the best attempt by `r2` or
overwrite everything with all-NaN placeholders, and lines 655–661 add the
`is_lstid` key only when `p0_sin_fit` is non-empty.  Series are lists of
`Option ℚ` with `none` for NaN; `evalSin` abstracts evaluating the
selected sinusoid parameters over the fit times. -/

structure TryOk where
  poly_fit : List ℚ
  p0_poly_fit : List (String × ℚ)
  data_detrend : List ℚ
  all_sin_fits : List (List (String × ℚ))

inductive TryOutcome where
  | ok : TryOk → TryOutcome
  | exn : TryOutcome

def all_sin_fits_of : TryOutcome → List (List (String × ℚ))
  | .ok t => t.all_sin_fits
  | .exn => []

def lookupP (p : List (String × ℚ)) (k : String) : ℚ :=
  ((p.find? (fun kv => kv.1 == k)).map Prod.snd).getD 0

/-- `np.zeros(len(fit_times)) * np.nan`: a series of NaNs over the fit
times. -/
def nan_series (n : ℕ) : List (Option ℚ) := List.replicate n none

structure FitStageResult where
  sin_fit : List (Option ℚ)
  p0_sin_fit : List (String × ℚ)
  poly_fit : List (Option ℚ)
  p0_poly_fit : List (String × ℚ)
  data_detrend : List (Option ℚ)
  has_is_lstid : Bool

def finalize_fit (n : ℕ) (evalSin : List (String × ℚ) → List (Option ℚ))
    (t : TryOutcome) : FitStageResult :=
  let fits := all_sin_fits_of t
  if fits.isEmpty then
    { sin_fit := nan_series n, p0_sin_fit := [], poly_fit := nan_series n,
      p0_poly_fit := [], data_detrend := nan_series n, has_is_lstid := false }
  else
    let sorted := fits.insertionSort (fun a b => lookupP b "r2" ≤ lookupP a "r2")
    let best := sorted.headD []
    let p0_sel := best ++ [("selected", 1)]
    let p0 := best.filter (fun kv => kv.1 != "r2" && kv.1 != "T_hr_guess")
    match t with
    | .ok tk =>
      { sin_fit := evalSin p0, p0_sin_fit := p0_sel,
        poly_fit := tk.poly_fit.map some, p0_poly_fit := tk.p0_poly_fit,
        data_detrend := tk.data_detrend.map some,
        has_is_lstid := !p0_sel.isEmpty }
    | .exn =>
      { sin_fit := nan_series n, p0_sin_fit := [], poly_fit := nan_series n,
        p0_poly_fit := [], data_detrend := nan_series n, has_is_lstid := false }

/-- C10: when no sinusoid fit attempt succeeds (every guess failed or the
fit block raised), the returned `sin_fit`, `poly_fit` and `data_detrend`
are the all-NaN placeholder series, `p0_sin_fit` and `p0_poly_fit` are
empty — discarding the polynomial results even when the polynomial fit
itself succeeded — and no `is_lstid` key is produced. -/
theorem finalize_fit_no_success (n : ℕ)
    (evalSin : List (String × ℚ) → List (Option ℚ)) (t : TryOutcome)
    (h : all_sin_fits_of t = []) :
    finalize_fit n evalSin t =
      { sin_fit := nan_series n, p0_sin_fit := [], poly_fit := nan_series n,
        p0_poly_fit := [], data_detrend := nan_series n, has_is_lstid := false } := by
  unfold finalize_fit
  rw [h]
  rfl

/-- C10 witness: a fit block that completed normally with successful
polynomial artifacts but zero successful sinusoid attempts still yields
only placeholders. -/
theorem finalize_fit_no_success_witness :
    finalize_fit 2 (fun _ => []) (.ok ⟨[5, 6], [("c_0", 5)], [7], []⟩) =
      { sin_fit := [none, none], p0_sin_fit := [], poly_fit := [none, none],
        p0_poly_fit := [], data_detrend := [none, none], has_is_lstid := false } := by
  have h := finalize_fit_no_success 2 (fun _ => []) (.ok ⟨[5, 6], [("c_0", 5)], [7], []⟩) rfl
  simpa [nan_series] using h

end LSTID
